import Mathlib

/-!
Verification development for the UDAP traffic-light viewer pipeline
(`api_client.py`, `main.py`, `scripts/update_stats_history.py`).

The Python code is shallowly embedded: JSON records become structures whose
optional fields are `Option` (with `none` = key absent, or absent-or-null for
the numeric coordinate fields, where the code treats the two identically),
pandas rows become a `Row` structure, dicts keyed by strings become
association lists in insertion order, and Python loops become folds.
-/

namespace Udap

/-- One element of a raw subject's `categories` list.  Either key spelling of
the identifier may be present. -/
structure RawCategory where
  id : Option String
  categoryId : Option String
  name : Option String
  deriving Repr, DecidableEq

/-- One element of a raw subject's `subjectComponents` list.  Either key
spelling of the type name may be present. -/
structure RawComponent where
  typeName : Option String
  componentTypeName : Option String
  organizationName : Option String
  deriving Repr, DecidableEq

/-- A raw subject record from the UDAP API (`none` = field absent). -/
structure RawSubject where
  id : Option String
  name : Option String
  identifier : Option String
  latitude : Option Int
  longitude : Option Int
  roadRegulatorId : Option Int
  roadRegulatorName : Option String
  subjectTypeName : Option String
  subjectTypeCode : Option String
  subjectComponents : List RawComponent
  categories : List RawCategory
  deriving Repr, DecidableEq

/-- A raw subject with every field absent and empty lists. -/
def emptySubject : RawSubject :=
  { id := none, name := none, identifier := none, latitude := none,
    longitude := none, roadRegulatorId := none, roadRegulatorName := none,
    subjectTypeName := none, subjectTypeCode := none,
    subjectComponents := [], categories := [] }

/-- A row of the normalized table built by `get_traffic_lights_gdf`
(coordinates stay `Option` until the dropna filter). -/
structure Row where
  id : String
  name : String
  identifier : String
  latitude : Option Int
  longitude : Option Int
  roadRegulatorId : Option Int
  roadRegulatorName : String
  subjectTypeName : String
  subjectTypeCode : String
  has_emergency : Bool
  has_road_operator : Bool
  has_public_transport : Bool
  has_logistics : Bool
  has_agriculture : Bool
  tlc_organization : String
  its_organization : String
  ris_organization : String
  category_ids : String
  category_names : String
  deriving Repr, DecidableEq

/-- `next((c.get('organizationName', '') for c in components if
c.get('typeName') == t), '')`: organization of the first component whose
`typeName` is `t`, defaulting to the empty string. -/
def orgOfType (comps : List RawComponent) (t : String) : String :=
  match comps with
  | [] => ""
  | c :: rest =>
      if c.typeName == some t then c.organizationName.getD ""
      else orgOfType rest t

/-- The per-record body of the `for loc in locations` loop of
`get_traffic_lights_gdf`. -/
def makeRow (loc : RawSubject) : Row :=
  let category_ids := loc.categories.map (fun c => c.id.getD "")
  let category_names := loc.categories.map (fun c => c.name.getD "")
  { id := loc.id.getD ""
    name := loc.name.getD ""
    identifier := loc.identifier.getD ""
    latitude := loc.latitude
    longitude := loc.longitude
    roadRegulatorId := loc.roadRegulatorId
    roadRegulatorName := loc.roadRegulatorName.getD ""
    subjectTypeName := loc.subjectTypeName.getD "iVRI"
    subjectTypeCode := loc.subjectTypeCode.getD "TRAFFIC_LIGHT"
    has_emergency := category_ids.contains "PBC:EMERGENCY"
    has_road_operator := category_ids.contains "PBC:ROAD_OPERATOR"
    has_public_transport := category_ids.contains "PBC:PUBLIC"
    has_logistics := category_ids.contains "PBC:LOGISTICS"
    has_agriculture := category_ids.contains "PBC:MACHINERY"
    tlc_organization := orgOfType loc.subjectComponents "TLC"
    its_organization := orgOfType loc.subjectComponents "ITS-applicatie"
    ris_organization := orgOfType loc.subjectComponents "RIS"
    category_ids := String.intercalate "," category_ids
    category_names := String.intercalate "," category_names }

/-- `df.dropna(subset=['latitude', 'longitude'])` keeps a row iff both
coordinates are present. -/
def hasCoords (r : Row) : Bool :=
  r.latitude.isSome && r.longitude.isSome

/-- The normalized table of `get_traffic_lights_gdf`: one row per raw record,
then rows without coordinates dropped. -/
def gdfRows (locations : List RawSubject) : List Row :=
  (locations.map makeRow).filter hasCoords

/-- The `properties` object of a GeoJSON feature emitted by
`generate_geojson`. -/
structure FeatureProps where
  id : String
  name : String
  identifier : String
  latitude : Option Int
  longitude : Option Int
  roadRegulatorId : Option Int
  roadRegulatorName : String
  subjectTypeName : String
  has_emergency : Bool
  has_road_operator : Bool
  has_public_transport : Bool
  has_logistics : Bool
  has_agriculture : Bool
  priorities : List String
  priority_count : Nat
  tlc_organization : String
  its_organization : String
  ris_organization : String
  deriving Repr, DecidableEq

/-- The per-row body of the feature loop of `generate_geojson`: the
`priorities` list is built by five successive conditional appends, and
`roadRegulatorId` is `int(x) if x else None`. -/
def mkFeature (row : Row) : FeatureProps :=
  let priorities :=
    (if row.has_emergency then ["emergency"] else []) ++
    (if row.has_road_operator then ["road_operator"] else []) ++
    (if row.has_public_transport then ["public_transport"] else []) ++
    (if row.has_logistics then ["logistics"] else []) ++
    (if row.has_agriculture then ["agriculture"] else [])
  { id := row.id
    name := row.name
    identifier := row.identifier
    latitude := row.latitude
    longitude := row.longitude
    roadRegulatorId :=
      match row.roadRegulatorId with
      | some n => if n = 0 then none else some n
      | none => none
    roadRegulatorName := row.roadRegulatorName
    subjectTypeName := row.subjectTypeName
    has_emergency := row.has_emergency
    has_road_operator := row.has_road_operator
    has_public_transport := row.has_public_transport
    has_logistics := row.has_logistics
    has_agriculture := row.has_agriculture
    priorities := priorities
    priority_count := priorities.length
    tlc_organization := row.tlc_organization
    its_organization := row.its_organization
    ris_organization := row.ris_organization }

/-- The feature list of the FeatureCollection built by `generate_geojson`:
one feature per row of the normalized table. -/
def geojsonFeatures (locations : List RawSubject) : List FeatureProps :=
  (gdfRows locations).map mkFeature

/-- `d[k] = d.get(k, 0) + 1` on an insertion-ordered dict rendered as an
association list: increment in place if present, else append with count 1. -/
def bump (l : List (String × Nat)) (k : String) : List (String × Nat) :=
  match l with
  | [] => [(k, 1)]
  | (k0, n) :: rest =>
      if k0 = k then (k0, n + 1) :: rest else (k0, n) :: bump rest k

/-- Insertion-ordered dict lookup. -/
def lookupStr {α : Type} (l : List (String × α)) (k : String) : Option α :=
  match l with
  | [] => none
  | (k0, v) :: rest => if k0 = k then some v else lookupStr rest k

/-- Sum of the counts of a counting dict. -/
def sumCounts (l : List (String × Nat)) : Nat :=
  (l.map (fun p => p.2)).sum

/-- Insert a pair into a descending-by-count list, after all entries with a
count at least as large (the placement Python's stable
`sorted(..., key=count, reverse=True)` gives a later-arriving element). -/
def insertDesc (p : String × Nat) : List (String × Nat) → List (String × Nat)
  | [] => [p]
  | q :: rest => if q.2 < p.2 then p :: q :: rest else q :: insertDesc p rest

/-- `dict(sorted(d.items(), key=lambda x: x[1], reverse=True))`: stable sort,
descending by count. -/
def sortDesc (l : List (String × Nat)) : List (String × Nat) :=
  l.foldl (fun acc p => insertDesc p acc) []

/-- Strict lexicographic order on character lists, by code point. -/
def charListLt : List Char → List Char → Bool
  | [], [] => false
  | [], _ :: _ => true
  | _ :: _, [] => false
  | a :: as, b :: bs =>
      if a.toNat < b.toNat then true
      else if b.toNat < a.toNat then false
      else charListLt as bs

/-- Strict lexicographic order on strings, by code point (the order pandas
uses when sorting string group keys). -/
def strLt (a b : String) : Bool :=
  charListLt a.data b.data

/-- Insert a pair into an ascending-by-key list. -/
def insertAscKey (p : String × Nat) : List (String × Nat) → List (String × Nat)
  | [] => [p]
  | q :: rest => if strLt p.1 q.1 then p :: q :: rest else q :: insertAscKey p rest

/-- Sort a counting dict ascending by its string key. -/
def sortAscKey (l : List (String × Nat)) : List (String × Nat) :=
  l.foldl (fun acc p => insertAscKey p acc) []

/-- `series.groupby(key).size().to_dict()`: occurrence counts of the values,
with the group keys in ascending order (pandas sorts group keys). -/
def groupbySize (names : List String) : List (String × Nat) :=
  sortAscKey (names.foldl bump [])

/-- The five priority counters of the history path's `by_priority` dict. -/
structure PriorityCounts where
  emergency : Nat
  road_operator : Nat
  public_transport : Nat
  logistics : Nat
  agriculture : Nat
  deriving Repr, DecidableEq

/-- The `if/elif` chain of `calculate_stats` over one category id. -/
def bumpPriority (pc : PriorityCounts) (cid : String) : PriorityCounts :=
  if cid = "PBC:EMERGENCY" then { pc with emergency := pc.emergency + 1 }
  else if cid = "PBC:ROAD_OPERATOR" then
    { pc with road_operator := pc.road_operator + 1 }
  else if cid = "PBC:PUBLIC_TRANSPORT" then
    { pc with public_transport := pc.public_transport + 1 }
  else if cid = "PBC:LOGISTICS" then { pc with logistics := pc.logistics + 1 }
  else if cid = "PBC:AGRICULTURE" then
    { pc with agriculture := pc.agriculture + 1 }
  else pc

/-- The inner component loop of `calculate_stats`: scan for the first
component whose `componentTypeName` is `'TLC'` and `break` there; its
organization (key absent defaulting to `'Unknown'`) is counted only when
truthy, so a present-but-empty name yields no count. -/
def tlcOrgOf : List RawComponent → Option String
  | [] => none
  | c :: rest =>
      if c.componentTypeName == some "TLC" then
        let org := c.organizationName.getD "Unknown"
        if org = "" then none else some org
      else tlcOrgOf rest

/-- The mutable counters of `calculate_stats` before the final sorts. -/
structure StatsAcc where
  by_authority : List (String × Nat)
  by_tlc_organization : List (String × Nat)
  by_priority : PriorityCounts
  deriving Repr, DecidableEq

/-- One iteration of the `for item in data` loop of `calculate_stats`. -/
def statsStep (acc : StatsAcc) (item : RawSubject) : StatsAcc :=
  { by_authority := bump acc.by_authority (item.roadRegulatorName.getD "Unknown")
    by_tlc_organization :=
      match tlcOrgOf item.subjectComponents with
      | some org => bump acc.by_tlc_organization org
      | none => acc.by_tlc_organization
    by_priority :=
      item.categories.foldl
        (fun pc cat => bumpPriority pc (cat.categoryId.getD "")) acc.by_priority }

/-- The counters of `calculate_stats` after the main loop, before sorting. -/
def unsortedStats (data : List RawSubject) : StatsAcc :=
  data.foldl statsStep
    { by_authority := [], by_tlc_organization := [], by_priority := ⟨0, 0, 0, 0, 0⟩ }

/-- The statistics snapshot produced by the history path. -/
structure Stats where
  total : Nat
  by_authority : List (String × Nat)
  by_tlc_organization : List (String × Nat)
  by_priority : PriorityCounts
  deriving Repr, DecidableEq

/-- `calculate_stats` of `update_stats_history.py`: count per item, then sort
both dicts descending by count. -/
def calculate_stats (data : List RawSubject) : Stats :=
  let acc := unsortedStats data
  { total := data.length
    by_authority := sortDesc acc.by_authority
    by_tlc_organization := sortDesc acc.by_tlc_organization
    by_priority := acc.by_priority }

/-- The statistics dict produced by `get_statistics` of `api_client.py` over
the normalized table (empty table short-circuits to bare zero totals). -/
structure SnapStats where
  total : Nat
  by_authority : List (String × Nat)
  by_tlc_organization : List (String × Nat)
  priority_stats : PriorityCounts
  deriving Repr, DecidableEq

/-- `get_statistics`: pandas groupby sizes plus boolean column sums. -/
def get_statistics (rows : List Row) : SnapStats :=
  { total := rows.length
    by_authority := groupbySize (rows.map (fun r => r.roadRegulatorName))
    by_tlc_organization := groupbySize (rows.map (fun r => r.tlc_organization))
    priority_stats :=
      { emergency := rows.countP (fun r => r.has_emergency)
        road_operator := rows.countP (fun r => r.has_road_operator)
        public_transport := rows.countP (fun r => r.has_public_transport)
        logistics := rows.countP (fun r => r.has_logistics)
        agriculture := rows.countP (fun r => r.has_agriculture) } }

/-- `d[k] = v` on an insertion-ordered int-keyed dict. -/
def dictInsertInt (l : List (Int × String)) (k : Int) (v : String) :
    List (Int × String) :=
  match l with
  | [] => [(k, v)]
  | (k0, v0) :: rest =>
      if k0 = k then (k0, v) :: rest else (k0, v0) :: dictInsertInt rest k v

/-- Python truthiness of `loc.get('roadRegulatorId')`. -/
def regIdTruthy (o : Option Int) : Bool :=
  match o with
  | some n => n != 0
  | none => false

/-- A record's guard in `get_road_authorities`: `if reg_id and reg_name`. -/
def authContributes (loc : RawSubject) : Bool :=
  regIdTruthy loc.roadRegulatorId && (loc.roadRegulatorName.getD "" != "")

/-- `get_road_authorities`: fold the records into an id-to-name dict, keeping
only those with truthy id and name. -/
def get_road_authorities (locs : List RawSubject) : List (Int × String) :=
  locs.foldl
    (fun auth loc =>
      if authContributes loc then
        dictInsertInt auth (loc.roadRegulatorId.getD 0) (loc.roadRegulatorName.getD "")
      else auth) []

/-- One entry of `authority_changes` in `calculate_changes`. -/
structure AuthChange where
  previous : Nat
  current : Nat
  change : Int
  deriving Repr, DecidableEq

/-- The result of `calculate_changes` (in the first-week case the Python dict
simply has no `authority_changes` key; we render that as the empty list). -/
structure Changes where
  total_change : Int
  is_first_week : Bool
  authority_changes : List (String × AuthChange)
  deriving Repr, DecidableEq

/-- One week entry of the history log. -/
structure WeekEntry where
  week : String
  date : String
  timestamp : String
  stats : Stats
  changes : Changes
  deriving Repr, DecidableEq

/-- First-occurrence deduplication, rendering the key-set union
`set(a) | set(b)` of `calculate_changes` as a duplicate-free list. -/
def dedup (l : List String) : List String :=
  l.foldl (fun acc x => if x ∈ acc then acc else acc ++ [x]) []

/-- `calculate_changes` of `update_stats_history.py`. -/
def calculate_changes (current : Stats) (previous : Option WeekEntry) : Changes :=
  match previous with
  | none => { total_change := 0, is_first_week := true, authority_changes := [] }
  | some prev =>
      let current_auth := current.by_authority
      let prev_auth := prev.stats.by_authority
      let all_authorities :=
        dedup (current_auth.map (fun p => p.1) ++ prev_auth.map (fun p => p.1))
      { total_change := (current.total : Int) - (prev.stats.total : Int)
        is_first_week := false
        authority_changes :=
          all_authorities.foldl
            (fun ch auth =>
              let curr_count := (lookupStr current_auth auth).getD 0
              let prev_count := (lookupStr prev_auth auth).getD 0
              if curr_count ≠ prev_count then
                ch ++ [(auth,
                  { previous := prev_count, current := curr_count,
                    change := (curr_count : Int) - (prev_count : Int) })]
              else ch) [] }

/-- The history upsert of `main` in `update_stats_history.py`: when an entry
with the same week key exists, replace it at its position; otherwise append. -/
def upsertWeek : List WeekEntry → WeekEntry → List WeekEntry
  | [], e => [e]
  | w :: rest, e =>
      if w.week = e.week then e :: rest else w :: upsertWeek rest e

/-- Lookup of the entry for a given week key. -/
def lookupWeek : List WeekEntry → String → Option WeekEntry
  | [], _ => none
  | w :: rest, k => if w.week = k then some w else lookupWeek rest k

/-- The week entry `main` builds: stats from the data, changes diffed against
the last entry of the log as loaded (before the upsert). -/
def mkWeekEntry (weeks : List WeekEntry) (data : List RawSubject)
    (wk d ts : String) : WeekEntry :=
  let stats := calculate_stats data
  { week := wk, date := d, timestamp := ts, stats := stats,
    changes := calculate_changes stats weeks.getLast? }

/-- One run of the tracker on a loaded log: build this week's entry and
upsert it. -/
def trackerStep (weeks : List WeekEntry) (data : List RawSubject)
    (wk d ts : String) : List WeekEntry :=
  upsertWeek weeks (mkWeekEntry weeks data wk d ts)

/-- Spec-side description of a feature's priority data: the canonical
name/flag table in the fixed order of the spec. -/
def priorityFlagTable (row : Row) : List (String × Bool) :=
  [("emergency", row.has_emergency),
   ("road_operator", row.has_road_operator),
   ("public_transport", row.has_public_transport),
   ("logistics", row.has_logistics),
   ("agriculture", row.has_agriculture)]

/-- Spec-side `priorities`: the sublist of canonical names whose flag is
true, in the fixed order. -/
def specPriorities (row : Row) : List String :=
  ((priorityFlagTable row).filter (fun p => p.2)).map (fun p => p.1)

/-- Per-item, per-literal category count used to characterize the history
path's priority counters. -/
def countCat (data : List RawSubject) (lit : String) : Nat :=
  (data.map (fun it => it.categories.countP (fun c => c.categoryId.getD "" == lit))).sum

/-- Drop the `categoryId` spelling from a category. -/
def stripAltCat (c : RawCategory) : RawCategory :=
  { c with categoryId := none }

/-- Drop the `componentTypeName` spelling from a component. -/
def stripAltComp (c : RawComponent) : RawComponent :=
  { c with componentTypeName := none }

/-- Drop the key spellings only the history path reads
(`categoryId`, `componentTypeName`) from a record. -/
def stripAltKeys (loc : RawSubject) : RawSubject :=
  { loc with categories := loc.categories.map stripAltCat,
             subjectComponents := loc.subjectComponents.map stripAltComp }

/-- Drop the `id` spelling from a category. -/
def stripMainCat (c : RawCategory) : RawCategory :=
  { c with id := none }

/-- Drop the `typeName` spelling from a component. -/
def stripMainComp (c : RawComponent) : RawComponent :=
  { c with typeName := none }

/-- Drop the key spellings only the table path reads (category `id`,
component `typeName`) from a record. -/
def stripMainKeys (loc : RawSubject) : RawSubject :=
  { loc with categories := loc.categories.map stripMainCat,
             subjectComponents := loc.subjectComponents.map stripMainComp }

/-- The per-authority change entry of `calculate_changes`, keyed by the
authority name: present exactly when the two counts (each defaulting to 0)
differ. -/
def authChangeEntry (current_auth prev_auth : List (String × Nat)) (a : String) :
    Option (String × AuthChange) :=
  let curr_count := (lookupStr current_auth a).getD 0
  let prev_count := (lookupStr prev_auth a).getD 0
  if curr_count ≠ prev_count then
    some (a, { previous := prev_count, current := curr_count,
               change := (curr_count : Int) - (prev_count : Int) })
  else none

/-- A counting dict ordered descending by count. -/
abbrev DescByCount (l : List (String × Nat)) : Prop :=
  l.Pairwise (fun a b => b.2 ≤ a.2)

/-- A counting dict ordered ascending by string key. -/
abbrev AscByKey (l : List (String × Nat)) : Prop :=
  l.Pairwise (fun a b => strLt b.1 a.1 = false)

/-- Test record carrying its priority category under the `categoryId`
spelling only. -/
def subjCatAlt : RawSubject :=
  { emptySubject with categories := [⟨none, some "PBC:EMERGENCY", none⟩] }

/-- Test record carrying its priority category under the `id` spelling
only. -/
def subjCatMain : RawSubject :=
  { emptySubject with categories := [⟨some "PBC:EMERGENCY", none, none⟩] }

/-- Test record whose TLC component uses the `componentTypeName` spelling
only. -/
def subjCompAlt : RawSubject :=
  { emptySubject with subjectComponents := [⟨none, some "TLC", some "Org"⟩] }

/-- Test record whose TLC component uses the `typeName` spelling only. -/
def subjCompMain : RawSubject :=
  { emptySubject with subjectComponents := [⟨some "TLC", none, some "Org"⟩] }

/-- Test record with coordinates, authority `A`. -/
def subjAuthA : RawSubject :=
  { emptySubject with roadRegulatorName := some "A",
                      latitude := some 1, longitude := some 1 }

/-- Test record with coordinates, authority `B`. -/
def subjAuthB : RawSubject :=
  { emptySubject with roadRegulatorName := some "B",
                      latitude := some 1, longitude := some 1 }

/-- Test record with coordinates present. -/
def subjWithCoords : RawSubject :=
  { emptySubject with latitude := some 52, longitude := some 5 }

/-- Test week entry for week `2026-W01` over the empty dataset. -/
def wEntryA : WeekEntry := mkWeekEntry [] [] "2026-W01" "2026-01-01" "ts1"

/-- A second test week entry with the same week key. -/
def wEntryB : WeekEntry := mkWeekEntry [] [emptySubject] "2026-W01" "2026-01-02" "ts2"

theorem bumpPriority_emergency (pc : PriorityCounts) (cid : String) :
    (bumpPriority pc cid).emergency
      = pc.emergency + (if cid = "PBC:EMERGENCY" then 1 else 0) := by
  unfold bumpPriority; split_ifs <;> simp_all

theorem bumpPriority_road_operator (pc : PriorityCounts) (cid : String) :
    (bumpPriority pc cid).road_operator
      = pc.road_operator + (if cid = "PBC:ROAD_OPERATOR" then 1 else 0) := by
  unfold bumpPriority; split_ifs <;> simp_all

theorem bumpPriority_public_transport (pc : PriorityCounts) (cid : String) :
    (bumpPriority pc cid).public_transport
      = pc.public_transport + (if cid = "PBC:PUBLIC_TRANSPORT" then 1 else 0) := by
  unfold bumpPriority; split_ifs <;> simp_all

theorem bumpPriority_logistics (pc : PriorityCounts) (cid : String) :
    (bumpPriority pc cid).logistics
      = pc.logistics + (if cid = "PBC:LOGISTICS" then 1 else 0) := by
  unfold bumpPriority; split_ifs <;> simp_all

theorem bumpPriority_agriculture (pc : PriorityCounts) (cid : String) :
    (bumpPriority pc cid).agriculture
      = pc.agriculture + (if cid = "PBC:AGRICULTURE" then 1 else 0) := by
  unfold bumpPriority; split_ifs <;> simp_all

theorem foldPriority_field (f : PriorityCounts → Nat) (lit : String)
    (hf : ∀ pc cid, f (bumpPriority pc cid) = f pc + (if cid = lit then 1 else 0)) :
    ∀ (cats : List RawCategory) (pc : PriorityCounts),
      f (cats.foldl (fun pc2 cat => bumpPriority pc2 (cat.categoryId.getD "")) pc)
        = f pc + cats.countP (fun c => c.categoryId.getD "" == lit) := by
  intro cats
  induction cats with
  | nil => intro pc; simp
  | cons c cs ih =>
    intro pc
    simp only [List.foldl_cons, List.countP_cons]
    rw [ih, hf]
    by_cases h : c.categoryId.getD "" = lit <;> simp [h] <;> omega

theorem statsFold_priority (f : PriorityCounts → Nat) (lit : String)
    (hf : ∀ pc cid, f (bumpPriority pc cid) = f pc + (if cid = lit then 1 else 0)) :
    ∀ (data : List RawSubject) (acc : StatsAcc),
      f (data.foldl statsStep acc).by_priority = f acc.by_priority + countCat data lit := by
  intro data
  induction data with
  | nil => intro acc; simp [countCat]
  | cons it rest ih =>
    intro acc
    simp only [List.foldl_cons, countCat, List.map_cons, List.sum_cons]
    rw [ih]
    have h2 := foldPriority_field f lit hf it.categories acc.by_priority
    simp only [statsStep] at *
    rw [h2]
    simp [countCat]
    omega

/-- C1: the table path derives its five priority flags from the literals
`PBC:EMERGENCY`, `PBC:ROAD_OPERATOR`, `PBC:PUBLIC`, `PBC:LOGISTICS`,
`PBC:MACHINERY` read from the category `id` key, while the history path
increments its five `by_priority` counters on `PBC:EMERGENCY`,
`PBC:ROAD_OPERATOR`, `PBC:PUBLIC_TRANSPORT`, `PBC:LOGISTICS`,
`PBC:AGRICULTURE` read from the category `categoryId` key. -/
theorem claim_C1_priority_literal_tables :
    (∀ loc : RawSubject,
        (makeRow loc).has_emergency
          = (loc.categories.map (fun c => c.id.getD "")).contains "PBC:EMERGENCY"
      ∧ (makeRow loc).has_road_operator
          = (loc.categories.map (fun c => c.id.getD "")).contains "PBC:ROAD_OPERATOR"
      ∧ (makeRow loc).has_public_transport
          = (loc.categories.map (fun c => c.id.getD "")).contains "PBC:PUBLIC"
      ∧ (makeRow loc).has_logistics
          = (loc.categories.map (fun c => c.id.getD "")).contains "PBC:LOGISTICS"
      ∧ (makeRow loc).has_agriculture
          = (loc.categories.map (fun c => c.id.getD "")).contains "PBC:MACHINERY")
  ∧ (∀ data : List RawSubject,
        (calculate_stats data).by_priority.emergency = countCat data "PBC:EMERGENCY"
      ∧ (calculate_stats data).by_priority.road_operator
          = countCat data "PBC:ROAD_OPERATOR"
      ∧ (calculate_stats data).by_priority.public_transport
          = countCat data "PBC:PUBLIC_TRANSPORT"
      ∧ (calculate_stats data).by_priority.logistics = countCat data "PBC:LOGISTICS"
      ∧ (calculate_stats data).by_priority.agriculture
          = countCat data "PBC:AGRICULTURE") := by
  constructor
  · intro loc
    exact ⟨rfl, rfl, rfl, rfl, rfl⟩
  · intro data
    have hb : (calculate_stats data).by_priority = (unsortedStats data).by_priority := rfl
    refine ⟨?_, ?_, ?_, ?_, ?_⟩ <;> rw [hb] <;> unfold unsortedStats
    · simpa using
        statsFold_priority PriorityCounts.emergency "PBC:EMERGENCY"
          bumpPriority_emergency data
          ⟨[], [], ⟨0, 0, 0, 0, 0⟩⟩
    · simpa using
        statsFold_priority PriorityCounts.road_operator "PBC:ROAD_OPERATOR"
          bumpPriority_road_operator data
          ⟨[], [], ⟨0, 0, 0, 0, 0⟩⟩
    · simpa using
        statsFold_priority PriorityCounts.public_transport "PBC:PUBLIC_TRANSPORT"
          bumpPriority_public_transport data
          ⟨[], [], ⟨0, 0, 0, 0, 0⟩⟩
    · simpa using
        statsFold_priority PriorityCounts.logistics "PBC:LOGISTICS"
          bumpPriority_logistics data
          ⟨[], [], ⟨0, 0, 0, 0, 0⟩⟩
    · simpa using
        statsFold_priority PriorityCounts.agriculture "PBC:AGRICULTURE"
          bumpPriority_agriculture data
          ⟨[], [], ⟨0, 0, 0, 0, 0⟩⟩

/-- C3: each encoded feature's `priorities` is exactly the sublist of the
canonical flag-name list whose boolean flag is true, in the fixed order, and
`priority_count` is its length. -/
theorem claim_C3_priorities_encoding :
    ∀ row : Row, (mkFeature row).priorities = specPriorities row
      ∧ (mkFeature row).priority_count = (mkFeature row).priorities.length := by
  intro row
  refine ⟨?_, rfl⟩
  obtain ⟨_, _, _, _, _, _, _, _, _, e, ro, pt, lg, ag, _, _, _, _, _⟩ := row
  cases e <;> cases ro <;> cases pt <;> cases lg <;> cases ag <;> rfl

/-- C2: a raw record missing latitude or longitude yields a row in neither
the normalized table nor the GeoJSON feature list; every other record yields
a row in both.  The exclusion is a total filtering step, not an error. -/
theorem claim_C2_coordinate_filter :
    ∀ (locs : List RawSubject) (loc : RawSubject), loc ∈ locs →
      ((loc.latitude = none ∨ loc.longitude = none) →
          makeRow loc ∉ gdfRows locs ∧ mkFeature (makeRow loc) ∉ geojsonFeatures locs)
      ∧ (loc.latitude ≠ none → loc.longitude ≠ none →
          makeRow loc ∈ gdfRows locs ∧ mkFeature (makeRow loc) ∈ geojsonFeatures locs) := by
  intro locs loc hmem
  have hml : (makeRow loc).latitude = loc.latitude := rfl
  have hmo : (makeRow loc).longitude = loc.longitude := rfl
  constructor
  · intro hcoord
    have hnc : hasCoords (makeRow loc) = false := by
      rcases hcoord with h | h <;> simp [hasCoords, hml, hmo, h]
    constructor
    · intro hin
      have h2 := (List.mem_filter.mp hin).2
      rw [hnc] at h2
      exact absurd h2 (by simp)
    · intro hin
      obtain ⟨r, hr, heq⟩ := List.mem_map.mp hin
      have hr2 := (List.mem_filter.mp hr).2
      have h1 : r.latitude = loc.latitude := congrArg FeatureProps.latitude heq
      have h2 : r.longitude = loc.longitude := congrArg FeatureProps.longitude heq
      rcases hcoord with h | h <;> simp [hasCoords, h1, h2, h] at hr2
  · intro hlatne hlonne
    have hc : hasCoords (makeRow loc) = true := by
      simp [hasCoords, hml, hmo, Option.isSome_iff_ne_none, hlatne, hlonne]
    have hrow : makeRow loc ∈ gdfRows locs :=
      List.mem_filter.mpr ⟨List.mem_map_of_mem makeRow hmem, hc⟩
    exact ⟨hrow, List.mem_map_of_mem mkFeature hrow⟩

/-- Witness for C2 at a concrete two-record input. -/
theorem claim_C2_witness :
    (makeRow subjWithCoords ∈ gdfRows [emptySubject, subjWithCoords]
      ∧ mkFeature (makeRow subjWithCoords) ∈ geojsonFeatures [emptySubject, subjWithCoords])
    ∧ makeRow emptySubject ∉ gdfRows [emptySubject, subjWithCoords] := by
  have h1 := claim_C2_coordinate_filter [emptySubject, subjWithCoords]
    subjWithCoords (by decide)
  have h2 := claim_C2_coordinate_filter [emptySubject, subjWithCoords]
    emptySubject (by decide)
  exact ⟨h1.2 (by decide) (by decide), (h2.1 (Or.inl rfl)).1⟩

/-- C9: a falsy normalized `roadRegulatorId` (absent, or the integer 0) is
emitted as null in the feature properties, and `get_road_authorities` skips
every record whose regulator id or name is falsy. -/
theorem claim_C9_falsy_regulator :
    (∀ row : Row, (row.roadRegulatorId = none ∨ row.roadRegulatorId = some 0) →
        (mkFeature row).roadRegulatorId = none)
  ∧ (∀ (pre post : List RawSubject) (loc : RawSubject), authContributes loc = false →
        get_road_authorities (pre ++ loc :: post) = get_road_authorities (pre ++ post)) := by
  constructor
  · intro row h
    rcases h with h | h <;> simp [mkFeature, h]
  · intro pre post loc h
    unfold get_road_authorities
    rw [List.foldl_append, List.foldl_append, List.foldl_cons]
    congr 1
    simp [h]

/-- Witness for C9 at concrete records. -/
theorem claim_C9_witness :
    (mkFeature (makeRow { emptySubject with roadRegulatorId := some 0 })).roadRegulatorId
        = none
    ∧ get_road_authorities [emptySubject] = get_road_authorities [] := by
  constructor
  · exact claim_C9_falsy_regulator.1 _ (Or.inr rfl)
  · exact claim_C9_falsy_regulator.2 [] [] emptySubject (by decide)

/-- C10: in the history path's TLC-organization count only the first
component typed `TLC` is considered; an absent organization name counts as
`Unknown`, while a present-but-empty one yields no count at all. -/
theorem claim_C10_first_tlc :
    (∀ (pre post : List RawComponent) (c : RawComponent),
        (∀ c2 ∈ pre, c2.componentTypeName ≠ some "TLC") →
        c.componentTypeName = some "TLC" →
        tlcOrgOf (pre ++ c :: post)
          = (if c.organizationName.getD "Unknown" = "" then none
             else some (c.organizationName.getD "Unknown")))
  ∧ (∀ item : RawSubject,
        (calculate_stats [item]).by_tlc_organization
          = match tlcOrgOf item.subjectComponents with
            | some org => [(org, 1)]
            | none => []) := by
  constructor
  · intro pre
    induction pre with
    | nil =>
      intro post c _ hc
      simp [tlcOrgOf, hc]
    | cons p ps ih =>
      intro post c hpre hc
      have hp : p.componentTypeName ≠ some "TLC" := hpre p (by simp)
      have hpb : (p.componentTypeName == some "TLC") = false := by simp [hp]
      rw [List.cons_append]
      simp only [tlcOrgOf, hpb, Bool.false_eq_true, if_false]
      exact ih post c (fun c2 h2 => hpre c2 (by simp [h2])) hc
  · intro item
    cases h : tlcOrgOf item.subjectComponents <;>
      simp [calculate_stats, unsortedStats, statsStep, h, sortDesc, insertDesc, bump]

/-- Witness for C10: a lone TLC component with an empty organization name is
not counted. -/
theorem claim_C10_witness :
    tlcOrgOf [(⟨none, some "TLC", some ""⟩ : RawComponent)] = none := by
  have h := claim_C10_first_tlc.1 [] [] ⟨none, some "TLC", some ""⟩ (by simp) rfl
  simpa using h

/-- Counterexample to C4 as stated: the two key spellings are not synonyms
within a path.  The table path sees `PBC:EMERGENCY` only under `id` and a
TLC component only under `typeName`; the history path sees them only under
`categoryId` and `componentTypeName`. -/
theorem claim_C4_counterexample :
    ((makeRow subjCatAlt).has_emergency = false
      ∧ (makeRow subjCatMain).has_emergency = true)
    ∧ ((calculate_stats [subjCatMain]).by_priority.emergency = 0
      ∧ (calculate_stats [subjCatAlt]).by_priority.emergency = 1)
    ∧ ((makeRow subjCompAlt).tlc_organization = ""
      ∧ (makeRow subjCompMain).tlc_organization = "Org")
    ∧ ((calculate_stats [subjCompMain]).by_tlc_organization = []
      ∧ (calculate_stats [subjCompAlt]).by_tlc_organization = [("Org", 1)]) := by
  decide

theorem orgOfType_stripAlt (comps : List RawComponent) (t : String) :
    orgOfType (comps.map stripAltComp) t = orgOfType comps t := by
  induction comps with
  | nil => rfl
  | cons c cs ih => simp [orgOfType, stripAltComp, ih]

theorem tlcOrgOf_stripMain (comps : List RawComponent) :
    tlcOrgOf (comps.map stripMainComp) = tlcOrgOf comps := by
  induction comps with
  | nil => rfl
  | cons c cs ih => simp [tlcOrgOf, stripMainComp, ih]

theorem makeRow_stripAlt (loc : RawSubject) :
    makeRow (stripAltKeys loc) = makeRow loc := by
  unfold makeRow stripAltKeys
  have h1 : ((fun c : RawCategory => c.id.getD "") ∘ stripAltCat)
      = (fun c : RawCategory => c.id.getD "") := by
    funext c
    rfl
  have h2 : ((fun c : RawCategory => c.name.getD "") ∘ stripAltCat)
      = (fun c : RawCategory => c.name.getD "") := by
    funext c
    rfl
  simp [List.map_map, h1, h2, orgOfType_stripAlt]

theorem statsStep_stripMain (acc : StatsAcc) (item : RawSubject) :
    statsStep acc (stripMainKeys item) = statsStep acc item := by
  unfold statsStep stripMainKeys
  simp [tlcOrgOf_stripMain, List.foldl_map, stripMainCat]

/-- C4 amended: the key spellings are resolved one per path, not as
synonyms.  The table path reads only the `id` and `typeName` spellings
(erasing every `categoryId`/`componentTypeName` value leaves its rows
unchanged), and the history path reads only `categoryId` and
`componentTypeName` (erasing every category `id`/component `typeName` value
leaves `calculate_stats` unchanged). -/
theorem claim_C4_one_spelling_per_path :
    (∀ loc : RawSubject, makeRow (stripAltKeys loc) = makeRow loc)
  ∧ (∀ data : List RawSubject,
        calculate_stats (data.map stripMainKeys) = calculate_stats data) := by
  constructor
  · exact makeRow_stripAlt
  · intro data
    unfold calculate_stats unsortedStats
    rw [List.foldl_map]
    have hfun : (fun (a : StatsAcc) (x : RawSubject) => statsStep a (stripMainKeys x))
        = statsStep := by
      funext a x
      exact statsStep_stripMain a x
    rw [hfun]
    simp

theorem sumCounts_bump (l : List (String × Nat)) (k : String) :
    sumCounts (bump l k) = sumCounts l + 1 := by
  induction l with
  | nil => rfl
  | cons p rest ih =>
    obtain ⟨k0, n⟩ := p
    by_cases h : k0 = k <;> simp [bump, h, sumCounts] at * <;> omega

theorem sumCounts_insertDesc (p : String × Nat) (l : List (String × Nat)) :
    sumCounts (insertDesc p l) = p.2 + sumCounts l := by
  induction l with
  | nil => simp [insertDesc, sumCounts]
  | cons q rest ih =>
    unfold insertDesc
    by_cases h : q.2 < p.2
    · simp [h, sumCounts]
    · simp [h, sumCounts] at ih ⊢
      omega

theorem sumCounts_insertAscKey (p : String × Nat) (l : List (String × Nat)) :
    sumCounts (insertAscKey p l) = p.2 + sumCounts l := by
  induction l with
  | nil => simp [insertAscKey, sumCounts]
  | cons q rest ih =>
    unfold insertAscKey
    by_cases h : strLt p.1 q.1
    · simp [h, sumCounts]
    · simp [h, sumCounts] at ih ⊢
      omega

theorem sumCounts_sortDescFold :
    ∀ (l acc : List (String × Nat)),
      sumCounts (l.foldl (fun a p => insertDesc p a) acc) = sumCounts acc + sumCounts l := by
  intro l
  induction l with
  | nil => intro acc; simp [sumCounts]
  | cons p rest ih =>
    intro acc
    simp only [List.foldl_cons]
    rw [ih, sumCounts_insertDesc]
    simp [sumCounts]
    omega

theorem sumCounts_sortDesc (l : List (String × Nat)) :
    sumCounts (sortDesc l) = sumCounts l := by
  simpa [sumCounts] using sumCounts_sortDescFold l []

theorem sumCounts_sortAscFold :
    ∀ (l acc : List (String × Nat)),
      sumCounts (l.foldl (fun a p => insertAscKey p a) acc) = sumCounts acc + sumCounts l := by
  intro l
  induction l with
  | nil => intro acc; simp [sumCounts]
  | cons p rest ih =>
    intro acc
    simp only [List.foldl_cons]
    rw [ih, sumCounts_insertAscKey]
    simp [sumCounts]
    omega

theorem sumCounts_sortAscKey (l : List (String × Nat)) :
    sumCounts (sortAscKey l) = sumCounts l := by
  simpa [sumCounts] using sumCounts_sortAscFold l []

theorem sumCounts_bumpFold :
    ∀ (names : List String) (acc : List (String × Nat)),
      sumCounts (names.foldl bump acc) = sumCounts acc + names.length := by
  intro names
  induction names with
  | nil => intro acc; simp
  | cons n rest ih =>
    intro acc
    simp only [List.foldl_cons]
    rw [ih, sumCounts_bump]
    simp
    omega

theorem sumCounts_groupbySize (names : List String) :
    sumCounts (groupbySize names) = names.length := by
  unfold groupbySize sortAscKey
  rw [sumCounts_sortAscFold]
  simpa [sumCounts] using sumCounts_bumpFold names []

theorem statsFold_auth_sum :
    ∀ (data : List RawSubject) (acc : StatsAcc),
      sumCounts (data.foldl statsStep acc).by_authority
        = sumCounts acc.by_authority + data.length := by
  intro data
  induction data with
  | nil => intro acc; simp
  | cons it rest ih =>
    intro acc
    simp only [List.foldl_cons]
    rw [ih]
    simp [statsStep, sumCounts_bump]
    omega

theorem statsFold_tlc_sum :
    ∀ (data : List RawSubject) (acc : StatsAcc),
      sumCounts (data.foldl statsStep acc).by_tlc_organization
        = sumCounts acc.by_tlc_organization
          + (data.filter (fun it => (tlcOrgOf it.subjectComponents).isSome)).length := by
  intro data
  induction data with
  | nil => intro acc; simp
  | cons it rest ih =>
    intro acc
    simp only [List.foldl_cons, List.filter_cons]
    rw [ih]
    cases h : tlcOrgOf it.subjectComponents <;>
      simp [statsStep, h, sumCounts_bump] <;> omega

/-- Counterexample to C7 as stated: a record with no TLC component is
counted in `total` but under no organization, so the history path's
`by_tlc_organization` does not sum to `total`. -/
theorem claim_C7_counterexample :
    (calculate_stats [emptySubject]).total = 1
    ∧ sumCounts (calculate_stats [emptySubject]).by_tlc_organization = 0 := by
  decide

/-- C7 amended: `by_authority` sums to `total` in both paths, and
`by_tlc_organization` sums to `total` in the snapshot path; in the history
path `by_tlc_organization` sums to the number of records whose first TLC
component yields a truthy organization name, which can be less than
`total`. -/
theorem claim_C7_sum_totals :
    ∀ (data : List RawSubject) (rows : List Row),
      sumCounts (calculate_stats data).by_authority = (calculate_stats data).total
      ∧ sumCounts (calculate_stats data).by_tlc_organization
          = (data.filter (fun it => (tlcOrgOf it.subjectComponents).isSome)).length
      ∧ sumCounts (get_statistics rows).by_authority = (get_statistics rows).total
      ∧ sumCounts (get_statistics rows).by_tlc_organization = (get_statistics rows).total := by
  intro data rows
  refine ⟨?_, ?_, ?_, ?_⟩
  · show sumCounts (sortDesc (unsortedStats data).by_authority) = data.length
    rw [sumCounts_sortDesc]
    unfold unsortedStats
    simpa [sumCounts] using statsFold_auth_sum data ⟨[], [], ⟨0, 0, 0, 0, 0⟩⟩
  · show sumCounts (sortDesc (unsortedStats data).by_tlc_organization) = _
    rw [sumCounts_sortDesc]
    unfold unsortedStats
    simpa [sumCounts] using statsFold_tlc_sum data ⟨[], [], ⟨0, 0, 0, 0, 0⟩⟩
  · show sumCounts (groupbySize (rows.map (fun r => r.roadRegulatorName))) = rows.length
    rw [sumCounts_groupbySize]
    simp
  · show sumCounts (groupbySize (rows.map (fun r => r.tlc_organization))) = rows.length
    rw [sumCounts_groupbySize]
    simp

theorem charListLt_asymm :
    ∀ as bs : List Char, charListLt as bs = true → charListLt bs as = false := by
  intro as
  induction as with
  | nil =>
    intro bs h
    cases bs with
    | nil => simp [charListLt] at h
    | cons b bs2 => simp [charListLt]
  | cons a as2 ih =>
    intro bs h
    cases bs with
    | nil => simp [charListLt] at h
    | cons b bs2 =>
      simp only [charListLt] at h ⊢
      by_cases h1 : a.toNat < b.toNat
      · have h2 : ¬ b.toNat < a.toNat := by omega
        simp [h1, h2]
      · by_cases h2 : b.toNat < a.toNat
        · simp [h1, h2] at h
        · simp [h1, h2] at h ⊢
          exact ih bs2 h

theorem charListLt_trans :
    ∀ as bs cs : List Char, charListLt as bs = true → charListLt bs cs = true →
      charListLt as cs = true := by
  intro as
  induction as with
  | nil =>
    intro bs cs h1 h2
    cases cs with
    | nil =>
      cases bs with
      | nil => simp [charListLt] at h1
      | cons b bs2 => simp [charListLt] at h2
    | cons c cs2 => simp [charListLt]
  | cons a as2 ih =>
    intro bs cs h1 h2
    cases bs with
    | nil => simp [charListLt] at h1
    | cons b bs2 =>
      cases cs with
      | nil => simp [charListLt] at h2
      | cons c cs2 =>
        simp only [charListLt] at h1 h2 ⊢
        by_cases hab : a.toNat < b.toNat
        · by_cases hbc : b.toNat < c.toNat
          · have hac : a.toNat < c.toNat := by omega
            simp [hac]
          · by_cases hcb : c.toNat < b.toNat
            · simp [hbc, hcb] at h2
            · have hac : a.toNat < c.toNat := by omega
              simp [hac]
        · by_cases hba : b.toNat < a.toNat
          · simp [hab, hba] at h1
          · simp [hab, hba] at h1
            by_cases hbc : b.toNat < c.toNat
            · have hac : a.toNat < c.toNat := by omega
              simp [hac]
            · by_cases hcb : c.toNat < b.toNat
              · simp [hbc, hcb] at h2
              · simp [hbc, hcb] at h2
                have h3 := ih bs2 cs2 h1 h2
                have hac : ¬ a.toNat < c.toNat := by omega
                have hca : ¬ c.toNat < a.toNat := by omega
                simp [hac, hca, h3]

theorem strLt_asymm (a b : String) : strLt a b = true → strLt b a = false :=
  charListLt_asymm a.data b.data

theorem strLt_shift (y p q : String) :
    strLt p q = true → strLt y q = false → strLt y p = false := by
  intro h1 h2
  rcases Bool.eq_false_or_eq_true (strLt y p) with ht | hf
  · have h3 : strLt y q = true := charListLt_trans y.data p.data q.data ht h1
    rw [h2] at h3
    exact absurd h3 (by simp)
  · exact hf

theorem mem_insertDesc {x p : String × Nat} :
    ∀ {l : List (String × Nat)}, x ∈ insertDesc p l → x = p ∨ x ∈ l := by
  intro l
  induction l with
  | nil =>
    intro h
    simp [insertDesc] at h
    exact Or.inl h
  | cons q rest ih =>
    intro h
    unfold insertDesc at h
    by_cases hc : q.2 < p.2
    · rw [if_pos hc] at h
      rcases List.mem_cons.mp h with h | h
      · exact Or.inl h
      · exact Or.inr h
    · rw [if_neg hc] at h
      rcases List.mem_cons.mp h with h | h
      · exact Or.inr (List.mem_cons.mpr (Or.inl h))
      · rcases ih h with h | h
        · exact Or.inl h
        · exact Or.inr (List.mem_cons.mpr (Or.inr h))

theorem pairwise_insertDesc (p : String × Nat) :
    ∀ l : List (String × Nat), DescByCount l → DescByCount (insertDesc p l) := by
  intro l
  induction l with
  | nil => intro _; simp [insertDesc]
  | cons q rest ih =>
    intro h
    obtain ⟨hq, hrest⟩ := List.pairwise_cons.mp h
    unfold insertDesc
    by_cases hc : q.2 < p.2
    · rw [if_pos hc]
      refine List.pairwise_cons.mpr ⟨?_, h⟩
      intro y hy
      rcases List.mem_cons.mp hy with h2 | h2
      · subst h2; omega
      · have := hq y h2; omega
    · rw [if_neg hc]
      refine List.pairwise_cons.mpr ⟨?_, ih hrest⟩
      intro y hy
      rcases mem_insertDesc hy with h2 | h2
      · subst h2; omega
      · exact hq y h2

theorem pairwise_sortDescFold :
    ∀ (l acc : List (String × Nat)), DescByCount acc →
      DescByCount (l.foldl (fun a p => insertDesc p a) acc) := by
  intro l
  induction l with
  | nil => intro acc h; simpa using h
  | cons p rest ih =>
    intro acc h
    simp only [List.foldl_cons]
    exact ih _ (pairwise_insertDesc p acc h)

theorem sortDesc_pairwise (l : List (String × Nat)) : DescByCount (sortDesc l) :=
  pairwise_sortDescFold l [] List.Pairwise.nil

theorem filter_insertDesc (c : Nat) (p : String × Nat) :
    ∀ l : List (String × Nat), DescByCount l →
      (insertDesc p l).filter (fun x => x.2 == c)
        = l.filter (fun x => x.2 == c) ++ (if p.2 == c then [p] else []) := by
  intro l
  induction l with
  | nil =>
    intro _
    by_cases h : p.2 = c <;> simp [insertDesc, h]
  | cons q rest ih =>
    intro hl
    obtain ⟨hq, hrest⟩ := List.pairwise_cons.mp hl
    unfold insertDesc
    by_cases hc : q.2 < p.2
    · rw [if_pos hc]
      by_cases hpc : p.2 = c
      · have hnil : (q :: rest).filter (fun x => x.2 == c) = [] := by
          rw [List.filter_eq_nil_iff]
          intro a ha
          rcases List.mem_cons.mp ha with h2 | h2
          · subst h2; simp; omega
          · have := hq a h2; simp; omega
        simp [List.filter_cons, hpc, hnil]
      · simp [List.filter_cons, hpc]
    · rw [if_neg hc]
      rw [List.filter_cons, List.filter_cons]
      by_cases hqc : q.2 = c <;> simp [hqc, ih hrest]

theorem filter_sortDescFold (c : Nat) :
    ∀ (l acc : List (String × Nat)), DescByCount acc →
      (l.foldl (fun a p => insertDesc p a) acc).filter (fun x => x.2 == c)
        = acc.filter (fun x => x.2 == c) ++ l.filter (fun x => x.2 == c) := by
  intro l
  induction l with
  | nil => intro acc _; simp
  | cons p rest ih =>
    intro acc hacc
    simp only [List.foldl_cons]
    rw [ih _ (pairwise_insertDesc p acc hacc), filter_insertDesc c p acc hacc,
      List.filter_cons]
    by_cases hpc : p.2 = c <;> simp [hpc]

theorem sortDesc_filter (c : Nat) (l : List (String × Nat)) :
    (sortDesc l).filter (fun x => x.2 == c) = l.filter (fun x => x.2 == c) := by
  simpa using filter_sortDescFold c l [] List.Pairwise.nil

theorem mem_insertAscKey {x p : String × Nat} :
    ∀ {l : List (String × Nat)}, x ∈ insertAscKey p l → x = p ∨ x ∈ l := by
  intro l
  induction l with
  | nil =>
    intro h
    simp [insertAscKey] at h
    exact Or.inl h
  | cons q rest ih =>
    intro h
    unfold insertAscKey at h
    by_cases hc : strLt p.1 q.1
    · rw [if_pos hc] at h
      rcases List.mem_cons.mp h with h | h
      · exact Or.inl h
      · exact Or.inr h
    · rw [if_neg hc] at h
      rcases List.mem_cons.mp h with h | h
      · exact Or.inr (List.mem_cons.mpr (Or.inl h))
      · rcases ih h with h | h
        · exact Or.inl h
        · exact Or.inr (List.mem_cons.mpr (Or.inr h))

theorem pairwise_insertAscKey (p : String × Nat) :
    ∀ l : List (String × Nat), AscByKey l → AscByKey (insertAscKey p l) := by
  intro l
  induction l with
  | nil => intro _; simp [insertAscKey]
  | cons q rest ih =>
    intro h
    obtain ⟨hq, hrest⟩ := List.pairwise_cons.mp h
    unfold insertAscKey
    by_cases hc : strLt p.1 q.1
    · rw [if_pos hc]
      refine List.pairwise_cons.mpr ⟨?_, h⟩
      intro y hy
      rcases List.mem_cons.mp hy with h2 | h2
      · subst h2
        exact strLt_asymm p.1 y.1 hc
      · exact strLt_shift y.1 p.1 q.1 hc (hq y h2)
    · rw [if_neg hc]
      refine List.pairwise_cons.mpr ⟨?_, ih hrest⟩
      intro y hy
      rcases mem_insertAscKey hy with h2 | h2
      · subst h2
        exact Bool.eq_false_iff.mpr hc
      · exact hq y h2

theorem pairwise_sortAscFold :
    ∀ (l acc : List (String × Nat)), AscByKey acc →
      AscByKey (l.foldl (fun a p => insertAscKey p a) acc) := by
  intro l
  induction l with
  | nil => intro acc h; simpa using h
  | cons p rest ih =>
    intro acc h
    simp only [List.foldl_cons]
    exact ih _ (pairwise_insertAscKey p acc h)

theorem groupbySize_ascending (names : List String) : AscByKey (groupbySize names) :=
  pairwise_sortAscFold (names.foldl bump []) [] List.Pairwise.nil

/-- Counterexample to C8 as stated: the snapshot path does not order by
descending count — pandas groupby orders by group key, so authority `A`
with 1 record precedes authority `B` with 2. -/
theorem claim_C8_counterexample :
    (get_statistics (gdfRows [subjAuthB, subjAuthB, subjAuthA])).by_authority
        = [("A", 1), ("B", 2)]
    ∧ ¬ DescByCount
        (get_statistics (gdfRows [subjAuthB, subjAuthB, subjAuthA])).by_authority := by
  refine ⟨by decide, ?_⟩
  intro h
  have h2 : (get_statistics (gdfRows [subjAuthB, subjAuthB, subjAuthA])).by_authority
      = [("A", 1), ("B", 2)] := by decide
  rw [h2] at h
  have h3 := (List.pairwise_cons.mp h).1 ("B", 2) (by simp)
  omega

/-- C8 amended: in the history path both mappings are sorted descending by
count and the sort is stable (for every count value the entries with that
count keep their pre-sort insertion order); in the snapshot path the
mappings are instead ordered ascending by group key. -/
theorem claim_C8_ordering :
    ∀ (data : List RawSubject) (rows : List Row) (c : Nat),
      DescByCount (calculate_stats data).by_authority
      ∧ DescByCount (calculate_stats data).by_tlc_organization
      ∧ (calculate_stats data).by_authority.filter (fun p => p.2 == c)
          = (unsortedStats data).by_authority.filter (fun p => p.2 == c)
      ∧ (calculate_stats data).by_tlc_organization.filter (fun p => p.2 == c)
          = (unsortedStats data).by_tlc_organization.filter (fun p => p.2 == c)
      ∧ AscByKey (get_statistics rows).by_authority
      ∧ AscByKey (get_statistics rows).by_tlc_organization := by
  intro data rows c
  refine ⟨sortDesc_pairwise _, sortDesc_pairwise _, sortDesc_filter c _,
    sortDesc_filter c _, groupbySize_ascending _, groupbySize_ascending _⟩

theorem lookupStr_eq_none {α : Type} :
    ∀ (l : List (String × α)) (a : String),
      a ∉ l.map (fun p => p.1) → lookupStr l a = none := by
  intro l
  induction l with
  | nil => intro a _; rfl
  | cons p rest ih =>
    intro a ha
    obtain ⟨k, v⟩ := p
    rw [List.map_cons, List.mem_cons] at ha
    push_neg at ha
    obtain ⟨ha1, ha2⟩ := ha
    unfold lookupStr
    rw [if_neg (fun h => ha1 h.symm)]
    exact ih a ha2

theorem dedupFold_mem :
    ∀ (l acc : List String) (x : String),
      x ∈ l.foldl (fun acc2 y => if y ∈ acc2 then acc2 else acc2 ++ [y]) acc
        ↔ x ∈ acc ∨ x ∈ l := by
  intro l
  induction l with
  | nil => intro acc x; simp
  | cons y rest ih =>
    intro acc x
    simp only [List.foldl_cons]
    rw [ih]
    by_cases hy : y ∈ acc
    · rw [if_pos hy]
      constructor
      · intro h
        rcases h with h | h
        · exact Or.inl h
        · exact Or.inr (List.mem_cons.mpr (Or.inr h))
      · intro h
        rcases h with h | h
        · exact Or.inl h
        · rcases List.mem_cons.mp h with h | h
          · subst h; exact Or.inl hy
          · exact Or.inr h
    · rw [if_neg hy]
      constructor
      · intro h
        rcases h with h | h
        · rcases List.mem_append.mp h with h | h
          · exact Or.inl h
          · have h2 := List.mem_singleton.mp h
            subst h2
            exact Or.inr (List.mem_cons.mpr (Or.inl rfl))
        · exact Or.inr (List.mem_cons.mpr (Or.inr h))
      · intro h
        rcases h with h | h
        · exact Or.inl (List.mem_append.mpr (Or.inl h))
        · rcases List.mem_cons.mp h with h | h
          · subst h
            exact Or.inl (List.mem_append.mpr (Or.inr (List.mem_singleton.mpr rfl)))
          · exact Or.inr h

theorem dedup_mem (l : List String) (x : String) : x ∈ dedup l ↔ x ∈ l := by
  unfold dedup
  rw [dedupFold_mem]
  simp

theorem dedupFold_nodup :
    ∀ (l acc : List String), acc.Nodup →
      (l.foldl (fun acc2 y => if y ∈ acc2 then acc2 else acc2 ++ [y]) acc).Nodup := by
  intro l
  induction l with
  | nil => intro acc h; simpa using h
  | cons y rest ih =>
    intro acc h
    simp only [List.foldl_cons]
    by_cases hy : y ∈ acc
    · rw [if_pos hy]
      exact ih acc h
    · rw [if_neg hy]
      refine ih _ ?_
      simp [List.nodup_append, h, hy]

theorem dedup_nodup (l : List String) : (dedup l).Nodup :=
  dedupFold_nodup l [] (by simp)

theorem authChangeEntry_key (ca pa : List (String × Nat)) (y : String)
    (e : String × AuthChange) : authChangeEntry ca pa y = some e → e.1 = y := by
  unfold authChangeEntry
  by_cases h : (lookupStr ca y).getD 0 ≠ (lookupStr pa y).getD 0
  · rw [if_pos h]
    intro he
    cases he
    rfl
  · rw [if_neg h]
    intro he
    exact Option.noConfusion he

theorem lookupStr_filterMap_not_mem (ca pa : List (String × Nat)) :
    ∀ (l : List String) (a : String), a ∉ l →
      lookupStr (l.filterMap (authChangeEntry ca pa)) a = none := by
  intro l
  induction l with
  | nil => intro a _; rfl
  | cons y rest ih =>
    intro a ha
    rw [List.mem_cons] at ha
    push_neg at ha
    obtain ⟨hay, har⟩ := ha
    rw [List.filterMap_cons]
    cases he : authChangeEntry ca pa y with
    | none => exact ih a har
    | some e =>
      have hk := authChangeEntry_key ca pa y e he
      obtain ⟨k, v⟩ := e
      have hk2 : k = y := hk
      unfold lookupStr
      rw [if_neg (fun h2 : k = a => hay (h2 ▸ hk2))]
      exact ih a har

theorem lookupStr_filterMap_mem (ca pa : List (String × Nat)) :
    ∀ l : List String, l.Nodup → ∀ a ∈ l,
      lookupStr (l.filterMap (authChangeEntry ca pa)) a
        = (authChangeEntry ca pa a).map (fun q => q.2) := by
  intro l
  induction l with
  | nil => intro _ a ha; exact absurd ha (by simp)
  | cons y rest ih =>
    intro hnd a ha
    obtain ⟨hy, hrest⟩ := List.pairwise_cons.mp hnd
    rw [List.filterMap_cons]
    rcases List.mem_cons.mp ha with hay | har
    · subst hay
      cases he : authChangeEntry ca pa a with
      | none =>
        have hnr : a ∉ rest := fun h2 => hy a h2 rfl
        rw [lookupStr_filterMap_not_mem ca pa rest a hnr]
        rfl
      | some e =>
        have hk := authChangeEntry_key ca pa a e he
        obtain ⟨k, v⟩ := e
        have hk2 : k = a := hk
        unfold lookupStr
        rw [if_pos hk2]
        rfl
    · have hne : y ≠ a := hy a har
      cases he : authChangeEntry ca pa y with
      | none => exact ih hrest a har
      | some e =>
        have hk := authChangeEntry_key ca pa y e he
        obtain ⟨k, v⟩ := e
        have hk2 : k = y := hk
        unfold lookupStr
        rw [if_neg (fun h2 : k = a => hne (hk2 ▸ h2))]
        exact ih hrest a har

theorem changesFold_eq (ca pa : List (String × Nat)) :
    ∀ (l : List String) (acc : List (String × AuthChange)),
      l.foldl
        (fun ch auth =>
          let curr_count := (lookupStr ca auth).getD 0
          let prev_count := (lookupStr pa auth).getD 0
          if curr_count ≠ prev_count then
            ch ++ [(auth,
              { previous := prev_count, current := curr_count,
                change := (curr_count : Int) - (prev_count : Int) })]
          else ch) acc
        = acc ++ l.filterMap (authChangeEntry ca pa) := by
  intro l
  induction l with
  | nil => intro acc; simp
  | cons a rest ih =>
    intro acc
    simp only [List.foldl_cons, List.filterMap_cons]
    by_cases h : (lookupStr ca a).getD 0 ≠ (lookupStr pa a).getD 0
    · have he : authChangeEntry ca pa a
          = some (a, { previous := (lookupStr pa a).getD 0,
                       current := (lookupStr ca a).getD 0,
                       change := ((lookupStr ca a).getD 0 : Int)
                           - ((lookupStr pa a).getD 0 : Int) }) := by
        unfold authChangeEntry
        rw [if_pos h]
      rw [if_pos h, ih, he]
      simp
    · have he : authChangeEntry ca pa a = none := by
        unfold authChangeEntry
        rw [if_neg h]
      rw [if_neg h, ih, he]

/-- C5: `calculate_changes` returns the first-week marker with zero change
and no authority changes when no prior entry exists; otherwise the total
delta and, for each authority name, an entry exactly when the current and
previous counts (each defaulting to 0) differ, carrying previous, current
and their difference. -/
theorem claim_C5_calculate_changes :
    ∀ current : Stats,
      calculate_changes current none
          = { total_change := 0, is_first_week := true, authority_changes := [] }
      ∧ ∀ p : WeekEntry,
          (calculate_changes current (some p)).total_change
              = (current.total : Int) - (p.stats.total : Int)
          ∧ (calculate_changes current (some p)).is_first_week = false
          ∧ ∀ a : String,
              lookupStr (calculate_changes current (some p)).authority_changes a
                = if (lookupStr current.by_authority a).getD 0
                      ≠ (lookupStr p.stats.by_authority a).getD 0
                  then some
                    { previous := (lookupStr p.stats.by_authority a).getD 0,
                      current := (lookupStr current.by_authority a).getD 0,
                      change := ((lookupStr current.by_authority a).getD 0 : Int)
                          - ((lookupStr p.stats.by_authority a).getD 0 : Int) }
                  else none := by
  intro current
  refine ⟨rfl, ?_⟩
  intro p
  refine ⟨rfl, rfl, ?_⟩
  intro a
  have h1 : (calculate_changes current (some p)).authority_changes
      = (dedup (current.by_authority.map (fun q => q.1)
          ++ p.stats.by_authority.map (fun q => q.1))).filterMap
          (authChangeEntry current.by_authority p.stats.by_authority) := by
    show List.foldl _ [] _ = _
    rw [changesFold_eq]
    simp
  rw [h1]
  by_cases hm : a ∈ dedup (current.by_authority.map (fun q => q.1)
      ++ p.stats.by_authority.map (fun q => q.1))
  · rw [lookupStr_filterMap_mem _ _ _ (dedup_nodup _) a hm]
    unfold authChangeEntry
    by_cases h : (lookupStr current.by_authority a).getD 0
        ≠ (lookupStr p.stats.by_authority a).getD 0
    · rw [if_pos h, if_pos h]
      rfl
    · rw [if_neg h, if_neg h]
      rfl
  · rw [lookupStr_filterMap_not_mem _ _ _ a hm]
    rw [dedup_mem, List.mem_append] at hm
    push_neg at hm
    obtain ⟨hca, hpa⟩ := hm
    rw [lookupStr_eq_none _ a hca, lookupStr_eq_none _ a hpa]
    simp

theorem upsertWeek_lookup :
    ∀ (ws : List WeekEntry) (e : WeekEntry),
      lookupWeek (upsertWeek ws e) e.week = some e := by
  intro ws
  induction ws with
  | nil =>
    intro e
    simp [upsertWeek, lookupWeek]
  | cons w rest ih =>
    intro e
    unfold upsertWeek
    by_cases h : w.week = e.week
    · rw [if_pos h]
      unfold lookupWeek
      rw [if_pos rfl]
    · rw [if_neg h]
      unfold lookupWeek
      rw [if_neg h]
      exact ih e

theorem lookupWeek_any :
    ∀ (ws : List WeekEntry) (k : String) (w : WeekEntry),
      lookupWeek ws k = some w → ws.any (fun x => x.week == k) = true := by
  intro ws
  induction ws with
  | nil => intro k w h; exact Option.noConfusion h
  | cons w0 rest ih =>
    intro k w h
    unfold lookupWeek at h
    by_cases h0 : w0.week = k
    · simp [List.any_cons, h0]
    · rw [if_neg h0] at h
      simp [List.any_cons, ih k w h]

theorem upsertWeek_length :
    ∀ (ws : List WeekEntry) (e : WeekEntry),
      (upsertWeek ws e).length
        = if ws.any (fun x => x.week == e.week) then ws.length else ws.length + 1 := by
  intro ws
  induction ws with
  | nil => intro e; simp [upsertWeek]
  | cons w rest ih =>
    intro e
    unfold upsertWeek
    by_cases h : w.week = e.week
    · rw [if_pos h]
      simp [List.any_cons, h]
    · rw [if_neg h]
      have hb : (w.week == e.week) = false := by simp [h]
      simp only [List.any_cons, hb, Bool.false_or, List.length_cons, ih e]
      by_cases h2 : rest.any (fun x => x.week == e.week) <;> simp [h2]

theorem upsertWeek_append :
    ∀ (ws : List WeekEntry) (e : WeekEntry),
      (∀ w ∈ ws, w.week ≠ e.week) → upsertWeek ws e = ws ++ [e] := by
  intro ws
  induction ws with
  | nil => intro e _; rfl
  | cons w rest ih =>
    intro e hne
    unfold upsertWeek
    rw [if_neg (hne w (by simp))]
    rw [ih e (fun x hx => hne x (by simp [hx]))]
    rfl

theorem upsertWeek_in_place :
    ∀ (pre : List WeekEntry) (w : WeekEntry) (post : List WeekEntry) (e : WeekEntry),
      (∀ x ∈ pre, x.week ≠ e.week) → w.week = e.week →
        upsertWeek (pre ++ w :: post) e = pre ++ e :: post := by
  intro pre
  induction pre with
  | nil =>
    intro w post e _ hw
    show upsertWeek (w :: post) e = e :: post
    unfold upsertWeek
    rw [if_pos hw]
  | cons p ps ih =>
    intro w post e hpre hw
    show upsertWeek (p :: (ps ++ w :: post)) e = p :: (ps ++ e :: post)
    unfold upsertWeek
    rw [if_neg (hpre p (by simp))]
    rw [ih w post e (fun x hx => hpre x (by simp [hx])) hw]

theorem weekKeys_upsert_mem :
    ∀ (ws : List WeekEntry) (e : WeekEntry) (x : String),
      x ∈ (upsertWeek ws e).map (fun w => w.week) →
        x ∈ ws.map (fun w => w.week) ∨ x = e.week := by
  intro ws
  induction ws with
  | nil =>
    intro e x h
    simp [upsertWeek] at h
    exact Or.inr h
  | cons w rest ih =>
    intro e x h
    unfold upsertWeek at h
    by_cases hc : w.week = e.week
    · rw [if_pos hc] at h
      rcases List.mem_cons.mp h with h2 | h2
      · exact Or.inr h2
      · exact Or.inl (List.mem_cons.mpr (Or.inr h2))
    · rw [if_neg hc] at h
      rcases List.mem_cons.mp h with h2 | h2
      · exact Or.inl (List.mem_cons.mpr (Or.inl h2))
      · rcases ih e x h2 with h3 | h3
        · exact Or.inl (List.mem_cons.mpr (Or.inr h3))
        · exact Or.inr h3

theorem upsertWeek_nodup :
    ∀ (ws : List WeekEntry) (e : WeekEntry),
      (ws.map (fun w => w.week)).Nodup →
        ((upsertWeek ws e).map (fun w => w.week)).Nodup := by
  intro ws
  induction ws with
  | nil => intro e _; simp [upsertWeek]
  | cons w rest ih =>
    intro e hnd
    rw [List.map_cons] at hnd
    obtain ⟨hw, hrest⟩ := List.pairwise_cons.mp hnd
    unfold upsertWeek
    by_cases hc : w.week = e.week
    · rw [if_pos hc, List.map_cons]
      refine List.pairwise_cons.mpr ⟨?_, hrest⟩
      intro y hy
      exact fun h2 => hw y hy (hc ▸ h2)
    · rw [if_neg hc, List.map_cons]
      refine List.pairwise_cons.mpr ⟨?_, ih e hrest⟩
      intro y hy
      rcases weekKeys_upsert_mem rest e y hy with h2 | h2
      · exact hw y h2
      · exact fun h3 => hc (h2 ▸ h3)

/-- C6: the history upsert keeps at most one entry per week key — replacing
in place at the existing position, else appending — so a second tracker run
in the same week with the same data leaves the length unchanged and the
week's single entry equal to the second run's computed entry. -/
theorem claim_C6_week_upsert :
    (∀ (weeks : List WeekEntry) (e : WeekEntry),
        ((weeks.map (fun w => w.week)).Nodup →
          ((upsertWeek weeks e).map (fun w => w.week)).Nodup)
      ∧ ((∀ w ∈ weeks, w.week ≠ e.week) → upsertWeek weeks e = weeks ++ [e])
      ∧ (∀ (pre post : List WeekEntry) (w : WeekEntry),
          (∀ x ∈ pre, x.week ≠ e.week) → w.week = e.week →
            upsertWeek (pre ++ w :: post) e = pre ++ e :: post)
      ∧ lookupWeek (upsertWeek weeks e) e.week = some e)
  ∧ (∀ (weeks : List WeekEntry) (data : List RawSubject) (wk d1 t1 d2 t2 : String),
      (trackerStep (trackerStep weeks data wk d1 t1) data wk d2 t2).length
          = (trackerStep weeks data wk d1 t1).length
      ∧ lookupWeek (trackerStep (trackerStep weeks data wk d1 t1) data wk d2 t2) wk
          = some (mkWeekEntry (trackerStep weeks data wk d1 t1) data wk d2 t2)) := by
  constructor
  · intro weeks e
    exact ⟨upsertWeek_nodup weeks e, upsertWeek_append weeks e,
      fun pre post w h1 h2 => upsertWeek_in_place pre w post e h1 h2,
      upsertWeek_lookup weeks e⟩
  · intro weeks data wk d1 t1 d2 t2
    have hlk : lookupWeek (trackerStep weeks data wk d1 t1) wk
        = some (mkWeekEntry weeks data wk d1 t1) :=
      upsertWeek_lookup weeks (mkWeekEntry weeks data wk d1 t1)
    have hany : (trackerStep weeks data wk d1 t1).any (fun x => x.week == wk) = true :=
      lookupWeek_any _ wk _ hlk
    constructor
    · show (upsertWeek (trackerStep weeks data wk d1 t1)
          (mkWeekEntry (trackerStep weeks data wk d1 t1) data wk d2 t2)).length = _
      rw [upsertWeek_length]
      rw [show ((trackerStep weeks data wk d1 t1).any
          (fun x => x.week
            == (mkWeekEntry (trackerStep weeks data wk d1 t1) data wk d2 t2).week))
          = true from hany]
      simp
    · exact upsertWeek_lookup (trackerStep weeks data wk d1 t1)
        (mkWeekEntry (trackerStep weeks data wk d1 t1) data wk d2 t2)

/-- Witness for C6 at concrete week entries sharing the key `2026-W01`. -/
theorem claim_C6_witness :
    ((upsertWeek [] wEntryA).map (fun w => w.week)).Nodup
    ∧ upsertWeek [] wEntryA = [wEntryA]
    ∧ upsertWeek [wEntryB] wEntryA = [wEntryA] := by
  refine ⟨(claim_C6_week_upsert.1 [] wEntryA).1 (by simp), ?_, ?_⟩
  · exact (claim_C6_week_upsert.1 [] wEntryA).2.1 (by simp)
  · exact (claim_C6_week_upsert.1 [] wEntryA).2.2.1 [] [] wEntryB (by simp) rfl

end Udap
